import Mathlib

/-!
# Verification of the xpense expense-tracker state core

Shallow embedding of the repository's state-management layer:

* `expenseReducer` — the reducer of `src/unnamed/part_000` (the module
  imported by `src/js/app.js` as `store.js`), which has a `SET_CURRENCY`
  case;
* `mainExpenseReducer` — the reducer of `src/js/main.js` (the combined
  entry script), which has no `SET_CURRENCY` case;
* `jsIndexOf` / `spliceRemoveOne` / `unsubscribe` — the listener-removal
  closure returned by `subscribe` in both scripts, including JavaScript's
  `Array.prototype.splice` semantics for a negative start index;
* `undoLastAction` — the undo handler of both entry scripts;
* `matchesMin` / `matchesMax` — the price clauses of the filter predicate
  in `renderTransactions`;
* `renderPieChart` — the pure slice-geometry part of the SVG pie chart
  generator (angles are kept exact, measured in units of π: the source's
  `sliceAngle = (value/total) * 2 * Math.PI` is represented by its
  coefficient `(value/total) * 2`, and the comparison
  `sliceAngle > Math.PI` by `coefficient > 1`).

JavaScript numbers reaching the filter's `minPrice`/`maxPrice` fields are
either absent (`undefined`, when the state predates those filter keys),
`0`, `Infinity`, or a finite value from `parseFloat(...) || 0` /
`parseFloat(...) || Infinity`; they are modelled by `Option JSNum` with
`JSNum` a rational or positive infinity.  Transaction amounts are finite
and modelled by `ℚ`.
-/

namespace Xpense

/-- A JavaScript number as it occurs in the filter price fields: a finite
value or `Infinity` (`NaN` is unreachable there: every write site guards
with `|| 0` or `|| Infinity`, and `NaN` is falsy). -/
inductive JSNum where
  | finite (q : ℚ)
  | posInf
  deriving DecidableEq

/-- JavaScript truthiness of a possibly-undefined number: `undefined`, `0`
are falsy; every other number (including `Infinity`) is truthy. -/
def jsTruthy : Option JSNum → Bool
  | none => false
  | some (JSNum.finite q) => decide (q ≠ 0)
  | some JSNum.posInf => true

/-- `a >= p` on JavaScript numbers (`a` finite): `a >= Infinity` is false. -/
def jsGe (a : ℚ) : JSNum → Bool
  | JSNum.finite q => decide (q ≤ a)
  | JSNum.posInf => false

/-- `a <= p` on JavaScript numbers (`a` finite): `a <= Infinity` is true. -/
def jsLe (a : ℚ) : JSNum → Bool
  | JSNum.finite q => decide (a ≤ q)
  | JSNum.posInf => true

/-- A transaction record: `{id, description, amount, type, category, date}`
as built by the form-submission handler and stored in `state.transactions`. -/
structure Transaction where
  id : String
  description : String
  amount : ℚ
  ttype : String
  category : String
  date : String
  deriving DecidableEq

/-- The tag of a history entry: `'ADD'` or `'DELETE'`. -/
inductive HKind where
  | ADD
  | DELETE
  deriving DecidableEq

/-- One undo-history entry `{type, data}`.  `data` is `Option` because
`DELETE_TRANSACTION` stores the result of `Array.prototype.find`, which is
`undefined` when no transaction matches. -/
structure HistoryEntry where
  kind : HKind
  data : Option Transaction
  deriving DecidableEq

/-- The `filters` sub-object of the state.  `minPrice`/`maxPrice` are
`Option` because the modular initial state (`part_000`) omits those keys
entirely, while `main.js` initialises them to `0` and `Infinity`. -/
structure FilterState where
  search : String
  category : String
  dateRange : String
  minPrice : Option JSNum
  maxPrice : Option JSNum
  deriving DecidableEq

/-- A partial filter update, the payload of `SET_FILTER`: a field is `none`
when the key is absent from the payload object (every dispatch site passes
exactly one defined key). -/
structure FilterPatch where
  search : Option String := none
  category : Option String := none
  dateRange : Option String := none
  minPrice : Option JSNum := none
  maxPrice : Option JSNum := none
  deriving DecidableEq

/-- The shallow merge `{ ...state.filters, ...action.payload }`. -/
def mergeFilters (f : FilterState) (p : FilterPatch) : FilterState :=
  { search := p.search.getD f.search
    category := p.category.getD f.category
    dateRange := p.dateRange.getD f.dateRange
    minPrice := match p.minPrice with | some v => some v | none => f.minPrice
    maxPrice := match p.maxPrice with | some v => some v | none => f.maxPrice }

/-- The application state object held by the store. -/
structure AppState where
  transactions : List Transaction
  history : List HistoryEntry
  theme : String
  currency : String
  filters : FilterState
  persist : Bool
  deriving DecidableEq

/-- An action object `{type, payload}`.  Each constructor is one recognised
`action.type` string with its payload; `other` stands for every
unrecognised tag (the reducers' `default` branch). -/
inductive Action where
  | addTransaction (payload : Transaction)
  | deleteTransaction (payload : String)
  | setTheme (payload : String)
  | setCurrency (payload : String)
  | setFilter (payload : FilterPatch)
  | other
  deriving DecidableEq

/-- The reducer of `src/unnamed/part_000` (`store.js`), lines 34–63.
`[x, ...xs]` is `x :: xs`, `.slice(0, 50)` is `List.take 50`,
`find(t => t.id === id)` is `List.find?`, and
`filter(t => t.id !== id)` keeps the non-matching transactions. -/
def expenseReducer (state : AppState) (action : Action) : AppState :=
  match action with
  | Action.addTransaction p =>
      { state with
        transactions := p :: state.transactions
        history := (⟨HKind.ADD, some p⟩ :: state.history).take 50 }
  | Action.deleteTransaction i =>
      let deletedItem := state.transactions.find? (fun t => t.id == i)
      { state with
        transactions := state.transactions.filter (fun t => t.id != i)
        history := (⟨HKind.DELETE, deletedItem⟩ :: state.history).take 50 }
  | Action.setTheme th => { state with theme := th }
  | Action.setCurrency c => { state with currency := c }
  | Action.setFilter p => { state with filters := mergeFilters state.filters p }
  | Action.other => state

/-- The reducer of `src/js/main.js`, lines 31–57.  Identical to
`expenseReducer` except that it has no `SET_CURRENCY` case, so a
`SET_CURRENCY` action falls through to the `default` branch. -/
def mainExpenseReducer (state : AppState) (action : Action) : AppState :=
  match action with
  | Action.addTransaction p =>
      { state with
        transactions := p :: state.transactions
        history := (⟨HKind.ADD, some p⟩ :: state.history).take 50 }
  | Action.deleteTransaction i =>
      let deletedItem := state.transactions.find? (fun t => t.id == i)
      { state with
        transactions := state.transactions.filter (fun t => t.id != i)
        history := (⟨HKind.DELETE, deletedItem⟩ :: state.history).take 50 }
  | Action.setTheme th => { state with theme := th }
  | Action.setFilter p => { state with filters := mergeFilters state.filters p }
  | _ => state

/-- The hardcoded default initial state of `part_000` (used when no saved
state exists); its `filters` object has no `minPrice`/`maxPrice` keys. -/
def initialState : AppState :=
  { transactions := []
    history := []
    theme := "dark"
    currency := "USD"
    filters :=
      { search := ""
        category := "all"
        dateRange := "all"
        minPrice := none
        maxPrice := none }
    persist := true }

/-- The hardcoded default initial state of `main.js`, whose `filters`
object carries `minPrice: 0` and `maxPrice: Infinity`. -/
def mainInitialState : AppState :=
  { initialState with
    filters :=
      { search := ""
        category := "all"
        dateRange := "all"
        minPrice := some (JSNum.finite 0)
        maxPrice := some JSNum.posInf } }

/-- JavaScript `Array.prototype.indexOf`: the first index of `x`, or `-1`
when `x` does not occur. -/
def jsIndexOf [BEq α] (l : List α) (x : α) : Int :=
  match l.findIdx? (fun a => a == x) with
  | some i => (i : Int)
  | none => -1

/-- JavaScript `Array.prototype.splice(start, 1)`: remove one element at
`start`, where a negative `start` counts from the end
(`actualStart = max(length + start, 0)`); when `actualStart ≥ length`
nothing is removed. -/
def spliceRemoveOne (l : List α) (start : Int) : List α :=
  let actual : Nat :=
    if start < 0 then ((l.length : Int) + start).toNat else min start.toNat l.length
  l.take actual ++ l.drop (actual + 1)

/-- The unsubscribe closure returned by `subscribe(listener)` in both
scripts (lines 20–26): `listeners.splice(listeners.indexOf(listener), 1)`. -/
def unsubscribe [BEq α] (listener : α) (listeners : List α) : List α :=
  spliceRemoveOne listeners (jsIndexOf listeners listener)

/-- The `undoLastAction` handler (`main.js` 426–435, `app.js` 315–326):
with an empty history it returns without dispatching; otherwise it reads
the top entry and dispatches the inverse action through the store's
reducer (the `ADD`/`DELETE` branches of both reducers coincide, so
`expenseReducer` is used).  `none` models the two branches where the top
entry's `data` is `undefined`: for an `ADD` entry the JavaScript throws
(reading `.id` of `undefined`), and for a `DELETE` entry it dispatches
`ADD_TRANSACTION` with an `undefined` payload, injecting a value outside
the transaction type into the list. -/
def undoLastAction (state : AppState) : Option AppState :=
  match state.history with
  | [] => some state
  | lastAction :: _ =>
      match lastAction.kind, lastAction.data with
      | HKind.ADD, some d => some (expenseReducer state (Action.deleteTransaction d.id))
      | HKind.DELETE, some d => some (expenseReducer state (Action.addTransaction d))
      | _, none => none

/-- The minimum-price clause of the filter predicate
(`!filters.minPrice || t.amount >= filters.minPrice`): when `minPrice` is
falsy the clause short-circuits to `true`; otherwise the comparison runs
(`a >= undefined` being false keeps the translation total). -/
def matchesMin (filters : FilterState) (amount : ℚ) : Bool :=
  !(jsTruthy filters.minPrice) ||
    (match filters.minPrice with
     | some p => jsGe amount p
     | none => false)

/-- The maximum-price clause of the filter predicate
(`!filters.maxPrice || t.amount <= filters.maxPrice`). -/
def matchesMax (filters : FilterState) (amount : ℚ) : Bool :=
  !(jsTruthy filters.maxPrice) ||
    (match filters.maxPrice with
     | some p => jsLe amount p
     | none => false)

/-- The spec's minimum-price clause, stated from its words: the
transaction passes iff `minPrice` is unset or zero or `amount ≥ minPrice`
(with `amount ≥ Infinity` false). -/
def specMinClause (filters : FilterState) (amount : ℚ) : Prop :=
  filters.minPrice = none ∨ filters.minPrice = some (JSNum.finite 0) ∨
    ∃ p, filters.minPrice = some p ∧ jsGe amount p = true

/-- The spec's maximum-price clause, stated from its words: the
transaction passes iff `maxPrice` is unset or not finite or
`amount ≤ maxPrice`. -/
def specMaxClause (filters : FilterState) (amount : ℚ) : Prop :=
  filters.maxPrice = none ∨ filters.maxPrice = some JSNum.posInf ∨
    ∃ q, filters.maxPrice = some (JSNum.finite q) ∧ amount ≤ q

/-- The amended maximum-price clause: as `specMaxClause` but a `maxPrice`
of zero (falsy in JavaScript) also passes. -/
def specMaxClauseAmended (filters : FilterState) (amount : ℚ) : Prop :=
  filters.maxPrice = none ∨ filters.maxPrice = some JSNum.posInf ∨
    filters.maxPrice = some (JSNum.finite 0) ∨
    ∃ q, filters.maxPrice = some (JSNum.finite q) ∧ amount ≤ q

/-- One input entry of `renderPieChart`: `{label, value, color}`. -/
structure Slice where
  label : String
  value : ℚ
  color : String
  deriving DecidableEq

/-- One emitted wedge of the pie chart.  Angles are exact and measured in
units of π: `startAnglePi` is the cumulative angle on entry and
`sliceAnglePi` the slice's angle, so the source's
`sliceAngle = (value/total) * 2 * Math.PI` appears as
`sliceAnglePi = value / total * 2` and `largeArcFlag` is `1` exactly when
`sliceAnglePi > 1` (i.e. `sliceAngle > Math.PI`). -/
structure Wedge where
  label : String
  value : ℚ
  color : String
  startAnglePi : ℚ
  sliceAnglePi : ℚ
  largeArcFlag : Nat
  deriving DecidableEq

/-- The chart output: the "No data to display" placeholder, or the wedge
list of the emitted SVG. -/
inductive ChartOutput where
  | noData
  | chart (wedges : List Wedge)
  deriving DecidableEq

/-- The `data.forEach` walk of `renderPieChart`, carrying the cumulative
angle (in units of π). -/
def buildWedges (total : ℚ) : ℚ → List Slice → List Wedge
  | _, [] => []
  | cum, s :: rest =>
      let sliceAnglePi := s.value / total * 2
      ⟨s.label, s.value, s.color, cum, sliceAnglePi,
        if 1 < sliceAnglePi then 1 else 0⟩ ::
        buildWedges total (cum + sliceAnglePi) rest

/-- `const total = data.reduce((acc, curr) => acc + curr.value, 0)` of
`renderPieChart`. -/
def chartTotal (data : List Slice) : ℚ :=
  data.foldl (fun acc curr => acc + curr.value) 0

/-- The pure geometry of `renderPieChart` (`part_000` 86–142, `main.js`
79–132): when `total === 0` the placeholder is produced, otherwise one
wedge per entry in input order. -/
def renderPieChart (data : List Slice) : ChartOutput :=
  if chartTotal data = 0 then ChartOutput.noData
  else ChartOutput.chart (buildWedges (chartTotal data) 0 data)

/-! ### Concrete sample inputs used by counterexamples and witnesses -/

/-- A sample transaction as the form handler would build it. -/
def t0 : Transaction :=
  ⟨"a1", "coffee", 5, "expense", "food", "2026-01-01T00:00:00.000Z"⟩

/-- A second, distinct transaction record sharing `t0`'s identifier. -/
def t1 : Transaction :=
  ⟨"a1", "bagel", 3, "expense", "food", "2026-01-02T00:00:00.000Z"⟩

/-- A state holding `t0` with the matching `ADD` undo entry on top. -/
def s3 : AppState :=
  { initialState with transactions := [t0], history := [⟨HKind.ADD, some t0⟩] }

/-- A state holding `t0` with an empty undo history. -/
def s6 : AppState :=
  { initialState with transactions := [t0] }

/-- A filter state whose `maxPrice` is the finite value `0`. -/
def f0 : FilterState :=
  { initialState.filters with maxPrice := some (JSNum.finite 0) }

/-- The spec's example filter state: `minPrice = 10`, `maxPrice = 50`. -/
def f1 : FilterState :=
  { initialState.filters with
    minPrice := some (JSNum.finite 10)
    maxPrice := some (JSNum.finite 50) }

/-- A sample chart input (total `4`). -/
def chartData : List Slice :=
  [⟨"Food", 1, "#fbbf24"⟩, ⟨"Rent", 1, "#818cf8"⟩, ⟨"Transport", 2, "#34d399"⟩]

/-! ## Shared helper lemmas -/

/-- One reducer step of `part_000` keeps the history within the 50-entry
cap: `ADD`/`DELETE` prepend one entry and `.slice(0, 50)`, every other
action leaves the history untouched. -/
theorem expenseReducer_history_le (s : AppState) (a : Action)
    (h : s.history.length ≤ 50) : (expenseReducer s a).history.length ≤ 50 := by
  cases a <;> simp [expenseReducer, List.length_take] <;> omega

/-- One reducer step of `main.js` keeps the history within the cap. -/
theorem mainExpenseReducer_history_le (s : AppState) (a : Action)
    (h : s.history.length ≤ 50) : (mainExpenseReducer s a).history.length ≤ 50 := by
  cases a <;> simp [mainExpenseReducer, List.length_take] <;> omega

/-- Folding any action sequence through `expenseReducer` preserves the
history cap. -/
theorem foldl_expenseReducer_history_le (acts : List Action) :
    ∀ s : AppState, s.history.length ≤ 50 →
      (acts.foldl expenseReducer s).history.length ≤ 50 := by
  induction acts with
  | nil => intro s h; simpa using h
  | cons a rest ih =>
      intro s h
      simpa [List.foldl] using ih _ (expenseReducer_history_le s a h)

/-- Folding any action sequence through `mainExpenseReducer` preserves the
history cap. -/
theorem foldl_mainExpenseReducer_history_le (acts : List Action) :
    ∀ s : AppState, s.history.length ≤ 50 →
      (acts.foldl mainExpenseReducer s).history.length ≤ 50 := by
  induction acts with
  | nil => intro s h; simpa using h
  | cons a rest ih =>
      intro s h
      simpa [List.foldl] using ih _ (mainExpenseReducer_history_le s a h)

/-- `buildWedges` emits exactly one wedge per input entry. -/
theorem buildWedges_length (total : ℚ) (data : List Slice) :
    ∀ cum : ℚ, (buildWedges total cum data).length = data.length := by
  induction data with
  | nil => intro cum; rfl
  | cons s rest ih => intro cum; simp [buildWedges, ih]

/-- Componentwise description of the `k`-th wedge: label, value, slice
angle (in units of π) and large-arc flag, independent of the cumulative
angle carried along. -/
theorem buildWedges_get (total : ℚ) (data : List Slice) :
    ∀ (cum : ℚ) (k : Nat) (hk : k < data.length)
      (hk' : k < (buildWedges total cum data).length),
      ((buildWedges total cum data).get ⟨k, hk'⟩).label = (data.get ⟨k, hk⟩).label ∧
      ((buildWedges total cum data).get ⟨k, hk'⟩).value = (data.get ⟨k, hk⟩).value ∧
      ((buildWedges total cum data).get ⟨k, hk'⟩).sliceAnglePi
          = (data.get ⟨k, hk⟩).value / total * 2 ∧
      ((buildWedges total cum data).get ⟨k, hk'⟩).largeArcFlag
          = if 1 < (data.get ⟨k, hk⟩).value / total * 2 then 1 else 0 := by
  induction data with
  | nil => intro cum k hk; exact absurd hk (by simp)
  | cons s rest ih =>
      intro cum k hk hk'
      cases k with
      | zero => exact ⟨rfl, rfl, rfl, rfl⟩
      | succ k =>
          exact ih _ k (Nat.lt_of_succ_lt_succ hk)
            (by simpa [buildWedges_length] using hk)

/-- A fold of non-negative slice values starting from a non-negative
accumulator stays non-negative. -/
theorem foldl_add_value_nonneg (data : List Slice) :
    ∀ acc : ℚ, 0 ≤ acc → (∀ s ∈ data, 0 ≤ s.value) →
      0 ≤ data.foldl (fun acc curr => acc + curr.value) acc := by
  induction data with
  | nil => intro acc h _; simpa using h
  | cons s rest ih =>
      intro acc h hnn
      have hs : 0 ≤ s.value := hnn s (by simp)
      simpa [List.foldl] using
        ih (acc + s.value) (by linarith) (fun u hu => hnn u (by simp [hu]))

/-- The chart total of non-negative values is non-negative. -/
theorem chartTotal_nonneg (data : List Slice) (hnn : ∀ s ∈ data, 0 ≤ s.value) :
    0 ≤ chartTotal data :=
  foldl_add_value_nonneg data 0 le_rfl hnn

/-! ## Claims -/

/-- C9: for every state and every action — recognised or not — both
reducers return a state whose `persist` flag equals the input state's:
no action of the mutation API can enable or disable persistence. -/
theorem persist_flag_invariant (s : AppState) (a : Action) :
    (expenseReducer s a).persist = s.persist ∧
    (mainExpenseReducer s a).persist = s.persist := by
  cases a <;> exact ⟨rfl, rfl⟩

/-- C4 counterexample: in the `main.js` reducer, `SET_CURRENCY` falls
through to the `default` branch, so dispatching `SET_CURRENCY("EUR")` on
a state whose currency is `"USD"` leaves the currency at `"USD"`, not
`"EUR"` as the claim requires of both entry scripts. -/
theorem set_currency_noop_in_main_reducer :
    (mainExpenseReducer initialState (Action.setCurrency "EUR")).currency = "USD" ∧
    "USD" ≠ "EUR" := by
  exact ⟨rfl, by decide⟩

/-- C4 amended: the `part_000` (`store.js`) reducer maps
`SET_CURRENCY(code)` to a state whose currency equals the payload and
whose every other field is unchanged; the `main.js` reducer has no
`SET_CURRENCY` case, so there the action returns the state unchanged
(currency included). -/
theorem set_currency_behavior (s : AppState) (c : String) :
    ((expenseReducer s (Action.setCurrency c)).currency = c ∧
     (expenseReducer s (Action.setCurrency c)).transactions = s.transactions ∧
     (expenseReducer s (Action.setCurrency c)).history = s.history ∧
     (expenseReducer s (Action.setCurrency c)).theme = s.theme ∧
     (expenseReducer s (Action.setCurrency c)).filters = s.filters ∧
     (expenseReducer s (Action.setCurrency c)).persist = s.persist) ∧
    mainExpenseReducer s (Action.setCurrency c) = s :=
  ⟨⟨rfl, rfl, rfl, rfl, rfl, rfl⟩, rfl⟩

/-- C1: deleting an id that matches no transaction leaves the transaction
list unchanged, but — contrary to the claim — the reducer still prepends
a history entry, with `undefined` data (the result of the failed `find`):
at the default initial state, `DELETE_TRANSACTION("zzz")` takes the
history from `[]` to `[{type: DELETE, data: undefined}]`. -/
theorem delete_nonexistent_id_pushes_undefined_history :
    (expenseReducer initialState (Action.deleteTransaction "zzz")).transactions
        = initialState.transactions ∧
    initialState.history = [] ∧
    (expenseReducer initialState (Action.deleteTransaction "zzz")).history
        = [⟨HKind.DELETE, none⟩] := by
  refine ⟨rfl, rfl, by decide⟩

/-- C2: the unsubscribe closure is not idempotent-safe.  With listeners
`[0, 1]`, the first call of the unsubscriber of `0` correctly removes it,
but the second call finds `indexOf = -1` and `splice(-1, 1)` then removes
the **last** remaining listener: the unrelated listener `1` is lost. -/
theorem double_unsubscribe_removes_other_listener :
    unsubscribe (0 : Nat) [0, 1] = [1] ∧
    unsubscribe (0 : Nat) (unsubscribe (0 : Nat) [0, 1]) = [] := by
  exact ⟨by decide, by decide⟩

/-- C3 counterexample: at a state whose history holds the single entry
`{type: ADD, data: t0}`, undo dispatches the inverse delete, and the
reducer prepends a `DELETE` record: the history ends with `2` entries,
not the `0` the claim ("exactly one fewer") requires. -/
theorem undo_grows_history_at_concrete_state :
    s3.history.length = 1 ∧
    (undoLastAction s3).map (fun s => s.history.length) = some 2 := by
  exact ⟨rfl, by decide⟩

/-- C3 amended: undo does not pop the history stack.  For every state
with a non-empty history whose top entry carries a transaction record,
undo dispatches the inverse action, and that dispatch **prepends** a new
history entry: afterwards the history has `min (n + 1) 50` entries —
one more than before whenever the cap is not hit, never one fewer. -/
theorem undo_prepends_history_entry (s : AppState) (e : HistoryEntry)
    (rest : List HistoryEntry) (d : Transaction)
    (hh : s.history = e :: rest) (hd : e.data = some d) :
    ∃ t : AppState, undoLastAction s = some t ∧
      t.history.length = min (s.history.length + 1) 50 := by
  obtain ⟨k, dat⟩ := e
  cases hd
  cases k with
  | ADD =>
      refine ⟨expenseReducer s (Action.deleteTransaction d.id), ?_, ?_⟩
      · unfold undoLastAction
        rw [hh]
      · simp [expenseReducer, List.length_take, hh, Nat.min_comm]
        omega
  | DELETE =>
      refine ⟨expenseReducer s (Action.addTransaction d), ?_, ?_⟩
      · unfold undoLastAction
        rw [hh]
      · simp [expenseReducer, List.length_take, hh, Nat.min_comm]
        omega

/-- C3 witness: the amended statement applied at the concrete state `s3`. -/
theorem undo_prepends_history_entry_witness :
    ∃ t : AppState, undoLastAction s3 = some t ∧
      t.history.length = min (s3.history.length + 1) 50 :=
  undo_prepends_history_entry s3 ⟨HKind.ADD, some t0⟩ [] t0 rfl rfl

/-- C5: a single reducer step of either script preserves the 50-entry
history bound, and every action sequence dispatched from the respective
default initial state (whose history is empty) keeps the history length
at most 50. -/
theorem history_never_exceeds_50 :
    (∀ (s : AppState) (a : Action), s.history.length ≤ 50 →
      (expenseReducer s a).history.length ≤ 50 ∧
      (mainExpenseReducer s a).history.length ≤ 50) ∧
    (∀ acts : List Action,
      (acts.foldl expenseReducer initialState).history.length ≤ 50 ∧
      (acts.foldl mainExpenseReducer mainInitialState).history.length ≤ 50) := by
  refine ⟨fun s a h => ⟨expenseReducer_history_le s a h,
      mainExpenseReducer_history_le s a h⟩, fun acts => ⟨?_, ?_⟩⟩
  · exact foldl_expenseReducer_history_le acts initialState (by decide)
  · exact foldl_mainExpenseReducer_history_le acts mainInitialState (by decide)

/-- C5 witness: the bound applied at a concrete state and action, and at
a concrete action sequence. -/
theorem history_never_exceeds_50_witness :
    ((expenseReducer initialState (Action.setTheme "light")).history.length ≤ 50) ∧
    (([Action.addTransaction t0].foldl expenseReducer initialState).history.length ≤ 50) :=
  ⟨(history_never_exceeds_50.1 initialState (Action.setTheme "light") (by decide)).1,
   (history_never_exceeds_50.2 [Action.addTransaction t0]).1⟩

/-- C6: when the state contains a transaction with identifier `i` — `t`
being the one `find` locates — `DELETE_TRANSACTION(i)` followed by undo
(which re-dispatches `ADD_TRANSACTION` with the deleted record from the
top history entry) yields a transaction list containing `t` again. -/
theorem delete_then_undo_restores_transaction (s : AppState) (i : String)
    (t : Transaction)
    (hfind : s.transactions.find? (fun u => u.id == i) = some t) :
    ∃ u : AppState,
      undoLastAction (expenseReducer s (Action.deleteTransaction i)) = some u ∧
      t ∈ u.transactions := by
  refine ⟨expenseReducer (expenseReducer s (Action.deleteTransaction i))
      (Action.addTransaction t), ?_, ?_⟩
  · unfold undoLastAction
    simp [expenseReducer, hfind, List.take_succ_cons]
  · simp [expenseReducer]

/-- C6 witness: the round-trip applied at the concrete state `s6`, which
holds `t0` under the identifier `"a1"`. -/
theorem delete_then_undo_restores_transaction_witness :
    ∃ u : AppState,
      undoLastAction (expenseReducer s6 (Action.deleteTransaction "a1")) = some u ∧
      t0 ∈ u.transactions :=
  delete_then_undo_restores_transaction s6 "a1" t0 (by decide)

/-- C7 counterexample: with `maxPrice` the finite, non-zero-excluded
value `0` and an amount of `5`, the code's maximum-price clause passes
(`!filters.maxPrice` treats `0` as unset), while the claim's clause
("unset or not finite or amount ≤ maxPrice") rejects. -/
theorem max_price_zero_passes_code_clause :
    matchesMax f0 5 = true ∧ ¬ specMaxClause f0 5 := by
  constructor
  · decide
  · simp [specMaxClause, f0, initialState]

/-- C7 amended: the minimum-price clause holds exactly as the claim
states it, and the maximum-price clause holds once "unset or not finite"
is widened to also admit a `maxPrice` of zero (zero being falsy); the
claim's concrete examples with `minPrice = 10`, `maxPrice = 50` hold:
amount `5` is excluded, `25` included, `100` excluded. -/
theorem price_clauses_characterisation :
    (∀ (f : FilterState) (a : ℚ), matchesMin f a = true ↔ specMinClause f a) ∧
    (∀ (f : FilterState) (a : ℚ), matchesMax f a = true ↔ specMaxClauseAmended f a) ∧
    (matchesMin f1 5 && matchesMax f1 5) = false ∧
    (matchesMin f1 25 && matchesMax f1 25) = true ∧
    (matchesMin f1 100 && matchesMax f1 100) = false := by
  refine ⟨fun f a => ?_, fun f a => ?_, by decide, by decide, by decide⟩
  · rcases hm : f.minPrice with _ | p
    · simp [matchesMin, jsTruthy, specMinClause, hm]
    · cases p with
      | finite q =>
          by_cases hq : q = 0
          · subst hq
            simp [matchesMin, jsTruthy, specMinClause, hm]
          · simp [matchesMin, jsTruthy, specMinClause, hm, hq, jsGe]
      | posInf =>
          simp [matchesMin, jsTruthy, specMinClause, hm, jsGe]
  · rcases hm : f.maxPrice with _ | p
    · simp [matchesMax, jsTruthy, specMaxClauseAmended, hm]
    · cases p with
      | finite q =>
          by_cases hq : q = 0
          · subst hq
            simp [matchesMax, jsTruthy, specMaxClauseAmended, hm]
          · simp [matchesMax, jsTruthy, specMaxClauseAmended, hm, hq, jsLe]
      | posInf =>
          simp [matchesMax, jsTruthy, specMaxClauseAmended, hm, jsLe]

/-- C8: for non-negative input values, the chart renderer produces the
"no data" placeholder exactly when the values sum to zero; otherwise it
emits one wedge per entry in input order, entry `k`'s slice angle being
`value / total × 2π` (here in units of π: `value / total × 2`) and its
large-arc flag being `1` exactly when that angle exceeds π — that is,
when `2 × value` exceeds the total — and `0` otherwise. -/
theorem pie_chart_matches_spec (data : List Slice)
    (hnn : ∀ s ∈ data, 0 ≤ s.value) :
    (chartTotal data = 0 → renderPieChart data = ChartOutput.noData) ∧
    (chartTotal data ≠ 0 →
      ∃ ws : List Wedge, renderPieChart data = ChartOutput.chart ws ∧
        ws.length = data.length ∧
        ∀ (k : Nat) (hk : k < data.length) (hk' : k < ws.length),
          (ws.get ⟨k, hk'⟩).label = (data.get ⟨k, hk⟩).label ∧
          (ws.get ⟨k, hk'⟩).value = (data.get ⟨k, hk⟩).value ∧
          (ws.get ⟨k, hk'⟩).sliceAnglePi
              = (data.get ⟨k, hk⟩).value / chartTotal data * 2 ∧
          ((ws.get ⟨k, hk'⟩).largeArcFlag = 1 ↔
              chartTotal data < 2 * (data.get ⟨k, hk⟩).value) ∧
          ((ws.get ⟨k, hk'⟩).largeArcFlag = 0 ↔
              ¬ chartTotal data < 2 * (data.get ⟨k, hk⟩).value)) := by
  constructor
  · intro h
    simp [renderPieChart, h]
  · intro h
    have htpos : 0 < chartTotal data :=
      lt_of_le_of_ne (chartTotal_nonneg data hnn) (Ne.symm h)
    refine ⟨buildWedges (chartTotal data) 0 data, by simp [renderPieChart, h],
      buildWedges_length _ _ _, ?_⟩
    intro k hk hk'
    obtain ⟨hl, hv, ha, hf⟩ := buildWedges_get (chartTotal data) data 0 k hk hk'
    have hang : (1 < (data.get ⟨k, hk⟩).value / chartTotal data * 2) ↔
        chartTotal data < 2 * (data.get ⟨k, hk⟩).value := by
      rw [div_mul_eq_mul_div, one_lt_div htpos, mul_comm]
    refine ⟨hl, hv, ha, ?_, ?_⟩
    · rw [hf, ← hang]
      split_ifs with hc <;> simp_all [List.get_eq_getElem]
    · rw [hf, ← hang]
      split_ifs with hc <;> simp_all [List.get_eq_getElem]

/-- C8 witness: the chart specification applied at the concrete input
`chartData` (values `1`, `1`, `2`; total `4`). -/
theorem pie_chart_matches_spec_witness :
    (chartTotal chartData = 0 → renderPieChart chartData = ChartOutput.noData) ∧
    (chartTotal chartData ≠ 0 →
      ∃ ws : List Wedge, renderPieChart chartData = ChartOutput.chart ws ∧
        ws.length = chartData.length ∧
        ∀ (k : Nat) (hk : k < chartData.length) (hk' : k < ws.length),
          (ws.get ⟨k, hk'⟩).label = (chartData.get ⟨k, hk⟩).label ∧
          (ws.get ⟨k, hk'⟩).value = (chartData.get ⟨k, hk⟩).value ∧
          (ws.get ⟨k, hk'⟩).sliceAnglePi
              = (chartData.get ⟨k, hk⟩).value / chartTotal chartData * 2 ∧
          ((ws.get ⟨k, hk'⟩).largeArcFlag = 1 ↔
              chartTotal chartData < 2 * (chartData.get ⟨k, hk⟩).value) ∧
          ((ws.get ⟨k, hk'⟩).largeArcFlag = 0 ↔
              ¬ chartTotal chartData < 2 * (chartData.get ⟨k, hk⟩).value)) :=
  pie_chart_matches_spec chartData (by decide)

/-- C10: `ADD_TRANSACTION` performs no identifier-uniqueness check: if a
state already holds a transaction `t` and `u` carries the same id,
dispatching `ADD_TRANSACTION(u)` yields at least two transactions with
that id, and a single `DELETE_TRANSACTION` of that id then removes every
one of them. -/
theorem add_duplicate_id_then_delete_removes_both (s : AppState)
    (t u : Transaction) (hmem : t ∈ s.transactions) (hid : u.id = t.id) :
    2 ≤ ((expenseReducer s (Action.addTransaction u)).transactions.countP
        (fun v => v.id == t.id)) ∧
    ∀ v ∈ (expenseReducer (expenseReducer s (Action.addTransaction u))
        (Action.deleteTransaction t.id)).transactions, v.id ≠ t.id := by
  constructor
  · have h1 : 0 < s.transactions.countP (fun v => v.id == t.id) :=
      List.countP_pos_iff.mpr ⟨t, hmem, by simp⟩
    have h2 : (expenseReducer s (Action.addTransaction u)).transactions
        = u :: s.transactions := rfl
    rw [h2, List.countP_cons_of_pos _ _ (by simp [hid])]
    omega
  · intro v hv
    have h3 : (expenseReducer (expenseReducer s (Action.addTransaction u))
        (Action.deleteTransaction t.id)).transactions
        = (u :: s.transactions).filter (fun w => w.id != t.id) := rfl
    rw [h3] at hv
    simpa using (List.mem_filter.mp hv).2

/-- C10 witness: the duplicate-id behavior applied at the concrete state
`s6` (holding `t0`) and the distinct record `t1` sharing `t0`'s id. -/
theorem add_duplicate_id_then_delete_removes_both_witness :
    2 ≤ ((expenseReducer s6 (Action.addTransaction t1)).transactions.countP
        (fun v => v.id == t0.id)) ∧
    ∀ v ∈ (expenseReducer (expenseReducer s6 (Action.addTransaction t1))
        (Action.deleteTransaction t0.id)).transactions, v.id ≠ t0.id :=
  add_duplicate_id_then_delete_removes_both s6 t0 t1 (by decide) (by decide)

end Xpense
